import Mathlib

/-!
Formal model of the VoiceSentinel streaming risk-analysis pipeline.

Each definition is a shallow embedding of a function of the Python server:
floating-point arithmetic is modelled over `ℚ`, NumPy arrays and Python
lists over `List ℚ`, and Python dictionaries over association lists kept in
insertion order.  External capabilities (the regex engine, the LLM, the
speaker-embedding model) enter as explicit function parameters of the
definitions that call them.
-/

namespace VoiceSentinel

/-! ## AudioBuffer (`audio_processor.py`, class `AudioBuffer`) -/

/-- `AudioBuffer.__init__`: `max_samples = int(max_duration * sample_rate)`. -/
def maxSamples (max_duration : ℚ) (sample_rate : ℕ) : ℕ :=
  (⌊max_duration * (sample_rate : ℚ)⌋).toNat

/-- One `deque.append` on a deque created with `maxlen = maxS`: the sample is
added on the right and the oldest samples are dropped on the left so that at
most `maxS` samples remain. -/
def dequeAppend (maxS : ℕ) (buf : List ℚ) (x : ℚ) : List ℚ :=
  (buf ++ [x]).drop (buf.length + 1 - maxS)

/-- `AudioBuffer.add_chunk`: every sample of the chunk is appended to the
bounded deque in order (`for sample in audio_chunk: self.buffer.append(sample)`). -/
def add_chunk (maxS : ℕ) (buf : List ℚ) (chunk : List ℚ) : List ℚ :=
  chunk.foldl (dequeAppend maxS) buf

/-- A whole session: the buffer starts empty and a sequence of chunks is
appended by `add_chunk`, one call per chunk. -/
def runAddChunks (maxS : ℕ) (chunks : List (List ℚ)) : List ℚ :=
  chunks.foldl (add_chunk maxS) []

/-! ## Risk fusion (`scam_detector.py` `_combine_scores`, `main.py`
`calculate_risk_score` and `get_risk_level`) -/

/-- The six text-analysis sub-scores passed to `ScamDetector._combine_scores`
(the keys of the `scores` dictionary built in `analyze_text`). -/
structure TextScores where
  pattern : ℚ
  pressure : ℚ
  personal_info : ℚ
  ml : ℚ
  llm : ℚ
  context : ℚ

/-- The six values of the `scores` dictionary, in insertion order. -/
def TextScores.values (s : TextScores) : List ℚ :=
  [s.pattern, s.pressure, s.personal_info, s.ml, s.llm, s.context]

/-- The weighted sum computed by `ScamDetector._combine_scores` (the local
`combined`): weights pattern 0.25, pressure 0.20, personal_info 0.25, ml 0.10,
llm 0.15, context 0.15; when OpenAI is unavailable the llm weight is 0 and
pattern/pressure/personal_info each gain 0.05. -/
def text_weighted_sum (use_openai : Bool) (s : TextScores) : ℚ :=
  let bump : ℚ := if use_openai then 0 else 5 / 100
  let wLlm : ℚ := if use_openai then 15 / 100 else 0
  s.pattern * (25 / 100 + bump) + s.pressure * (20 / 100 + bump)
    + s.personal_info * (25 / 100 + bump) + s.ml * (10 / 100)
    + s.llm * wLlm + s.context * (15 / 100)

/-- The number of sub-scores above 70 (`high_scores` in `_combine_scores`). -/
def high_score_count (s : TextScores) : ℕ :=
  (s.values.filter (fun x => decide ((70 : ℚ) < x))).length

/-- `ScamDetector._combine_scores`: the weighted sum, amplified by 1.2 when at
least two of the six sub-scores exceed 70, then clamped to [0, 100]. -/
def combine_scores (use_openai : Bool) (s : TextScores) : ℚ :=
  let combined := text_weighted_sum use_openai s
  let amplified :=
    if 2 ≤ high_score_count s then combined * (12 / 10) else combined
  min 100 (max 0 amplified)

/-- `main.py` `calculate_risk_score`: combines the text composite
(`scam_result["risk_score"]`) with the voice-spoofing score, amplifies by 1.2
when both exceed 60, scales by the averaged confidences, and clamps. -/
def calculate_risk_score (scam_score voice_score scam_confidence voice_confidence : ℚ) : ℚ :=
  let base_score := scam_score * (7 / 10) + voice_score * (3 / 10)
  let amplified :=
    if 60 < scam_score ∧ 60 < voice_score then base_score * (12 / 10) else base_score
  let avg_confidence := (scam_confidence / 100 + voice_confidence / 100) / 2
  let final_score := amplified * (7 / 10 + (3 / 10) * avg_confidence)
  min 100 (max 0 final_score)

/-- The fused risk score of one processed chunk: `calculate_risk_score` applied
to the output of `_combine_scores` (the `risk_score` field of the scam result),
the spoofing score and the two confidences. -/
def fused_risk_score (use_openai : Bool) (s : TextScores)
    (voice_score scam_confidence voice_confidence : ℚ) : ℚ :=
  calculate_risk_score (combine_scores use_openai s) voice_score
    scam_confidence voice_confidence

/-- `main.py` `get_risk_level` (and the identical
`ConnectionManager._get_risk_level`). -/
def get_risk_level (score : ℚ) : String :=
  if 70 ≤ score then "scam"
  else if 40 ≤ score then "suspicious"
  else "safe"

/-- The fusion formula exactly as claim C1 states it: the weighted text
composite times 0.7 plus the voice-spoofing score times 0.3, amplified by 1.2
when at least two of the six sub-scores exceed 70, then clamped to [0, 100]. -/
def claimedFusedScore (use_openai : Bool) (s : TextScores) (voice_score : ℚ) : ℚ :=
  let composite := text_weighted_sum use_openai s
  let combined := composite * (7 / 10) + voice_score * (3 / 10)
  let amplified :=
    if 2 ≤ high_score_count s then combined * (12 / 10) else combined
  min 100 (max 0 amplified)

/-- The fusion formula as the code actually computes it, written out as one
two-stage expression: the text composite is the weighted sum amplified by 1.2
when at least two sub-scores exceed 70 and clamped to [0, 100]; the fused score
is composite × 0.7 + voice × 0.3, amplified by 1.2 when both the composite and
the voice score exceed 60, scaled by 0.7 + 0.3 × (mean of the two confidences
as fractions of 100), and clamped to [0, 100]. -/
def amendedFusedScore (use_openai : Bool) (s : TextScores)
    (voice_score scam_confidence voice_confidence : ℚ) : ℚ :=
  let composite := min 100 (max 0
    ((if 2 ≤ high_score_count s then (12 : ℚ) / 10 else 1) * text_weighted_sum use_openai s))
  min 100 (max 0
    ((composite * (7 / 10) + voice_score * (3 / 10))
      * (if 60 < composite ∧ 60 < voice_score then (12 : ℚ) / 10 else 1)
      * (7 / 10 + (3 / 10) * ((scam_confidence + voice_confidence) / 200))))

/-! ## Energy-based speech segmentation (`audio_processing.py`,
`detect_speech_segments`) -/

/-- Mean energy of the 20 ms frame starting at sample `i`
(`np.sum(frame**2) / frame_size` for `frame = audio_data[i : i + frame_size]`). -/
def frameEnergy (audio : List ℚ) (frame_size i : ℕ) : ℚ :=
  (((audio.drop i).take frame_size).map (fun x => x * x)).sum / frame_size

/-- The frame start indices the loop evaluates:
`range(0, len(audio_data) - frame_size, hop_size)`, i.e. the multiples of
`hop_size` strictly below `len - frame_size`. -/
def vadIndices (len frame_size hop_size : ℕ) : List ℕ :=
  (List.range len).filter (fun i => decide (i % hop_size = 0) && decide (i < len - frame_size))

/-- The loop state of `detect_speech_segments`: whether a speech run is open,
where it started, and the emitted spans. -/
structure VadState where
  in_speech : Bool
  current_segment_start : ℕ
  speech_segments : List (ℕ × ℕ)

/-- One iteration of the frame loop of `detect_speech_segments`. -/
def vadStep (audio : List ℚ) (frame_size sample_rate : ℕ)
    (threshold min_speech_duration : ℚ) (st : VadState) (i : ℕ) : VadState :=
  let energy := frameEnergy audio frame_size i
  if threshold < energy then
    if st.in_speech then st
    else { st with in_speech := true, current_segment_start := i }
  else
    if st.in_speech then
      let segment_duration := ((i : ℚ) - st.current_segment_start) / sample_rate
      if min_speech_duration ≤ segment_duration then
        { in_speech := false, current_segment_start := st.current_segment_start,
          speech_segments := st.speech_segments ++ [(st.current_segment_start, i)] }
      else { st with in_speech := false }
    else st

/-- `detect_speech_segments`: frames of `int(0.02 * sample_rate)` samples at a
hop of `int(0.01 * sample_rate)`; a trailing open run is emitted if it reaches
`min_speech_duration`. -/
def detect_speech_segments (audio : List ℚ) (sample_rate : ℕ)
    (threshold min_speech_duration : ℚ) : List (ℕ × ℕ) :=
  let frame_size := 2 * sample_rate / 100
  let hop_size := sample_rate / 100
  let final := (vadIndices audio.length frame_size hop_size).foldl
    (vadStep audio frame_size sample_rate threshold min_speech_duration)
    ⟨false, 0, []⟩
  if final.in_speech then
    let segment_duration := ((audio.length : ℚ) - final.current_segment_start) / sample_rate
    if min_speech_duration ≤ segment_duration then
      final.speech_segments ++ [(final.current_segment_start, audio.length)]
    else final.speech_segments
  else final.speech_segments

/-! ## Online diarization (`services/diarization_service.py`,
`DiarizationService.assign_speaker`) -/

/-- The per-session speaker registry: `speaker_embeddings` is the dictionary
`{speaker_id: embedding}` kept in insertion (registration) order with the
numeric part of each id, and `speaker_id_counter` the id counter. -/
structure DiarState where
  speaker_embeddings : List (ℕ × List ℚ)
  speaker_id_counter : ℕ

/-- The string id `f"speaker_{n}"`. -/
def speakerNumber (n : ℕ) : String := "speaker_" ++ toString n

/-- The centroid update `old * 0.8 + new * 0.2`, elementwise on the embedding. -/
def emaUpdate (old new : List ℚ) : List ℚ :=
  List.zipWith (fun a b => a * (8 / 10) + b * (2 / 10)) old new

/-- The best-match loop of `assign_speaker`: starting from
`max_similarity = -1, best_match_id = None`, each registered speaker whose
similarity strictly exceeds the running maximum replaces it. -/
def bestLoop (f : List ℚ → ℚ) : List (ℕ × List ℚ) → ℚ × Option ℕ → ℚ × Option ℕ
  | [], acc => acc
  | p :: rest, (m, b) =>
    bestLoop f rest (if m < f p.2 then (f p.2, some p.1) else (m, b))

/-- `DiarizationService.assign_speaker`, with the cosine-similarity computation
(`torch.nn.functional.cosine_similarity`) passed in as `sim`. -/
def assign_speaker (sim : List ℚ → List ℚ → ℚ) (similarity_threshold : ℚ)
    (st : DiarState) (embedding : List ℚ) : String × DiarState :=
  if st.speaker_embeddings.isEmpty then
    let n := st.speaker_id_counter + 1
    (speakerNumber n, ⟨[(n, embedding)], n⟩)
  else
    let r := bestLoop (fun c => sim embedding c) st.speaker_embeddings (-1, none)
    if similarity_threshold < r.1 then
      let best := r.2.getD 0
      (speakerNumber best,
        ⟨st.speaker_embeddings.map
          (fun p => if p.1 = best then (p.1, emaUpdate p.2 embedding) else p),
         st.speaker_id_counter⟩)
    else
      let n := st.speaker_id_counter + 1
      (speakerNumber n, ⟨st.speaker_embeddings ++ [(n, embedding)], n⟩)

/-- What claim C5 states about one `assign_speaker` call at the reference
threshold 0.25: an empty registry creates a first speaker with the embedding as
centroid; otherwise, when some similarity exceeds 0.25 (i.e. `max_sim > 0.25`)
the best-matching speaker is returned — on equal similarity the earliest
registered, which carries the lowest id — and its centroid is replaced by
`0.8 × old + 0.2 × new`; when every similarity is at most 0.25
(i.e. `max_sim ≤ 0.25`) a fresh speaker id is allocated with the new embedding
as its centroid. -/
def AssignSpeakerClaim (sim : List ℚ → List ℚ → ℚ) (st : DiarState) (e : List ℚ) : Prop :=
  (st.speaker_embeddings = [] →
    assign_speaker sim (1 / 4) st e
      = (speakerNumber (st.speaker_id_counter + 1),
         ⟨[(st.speaker_id_counter + 1, e)], st.speaker_id_counter + 1⟩))
  ∧ (st.speaker_embeddings ≠ [] →
      ((∃ p ∈ st.speaker_embeddings, 1 / 4 < sim e p.2) →
        ∃ best ∈ st.speaker_embeddings,
          (∀ q ∈ st.speaker_embeddings, sim e q.2 ≤ sim e best.2)
          ∧ (∀ q ∈ st.speaker_embeddings, sim e q.2 = sim e best.2 → best.1 ≤ q.1)
          ∧ assign_speaker sim (1 / 4) st e
              = (speakerNumber best.1,
                 ⟨st.speaker_embeddings.map
                    (fun p => if p.1 = best.1 then (p.1, emaUpdate p.2 e) else p),
                  st.speaker_id_counter⟩))
      ∧ ((∀ p ∈ st.speaker_embeddings, sim e p.2 ≤ 1 / 4) →
        assign_speaker sim (1 / 4) st e
          = (speakerNumber (st.speaker_id_counter + 1),
             ⟨st.speaker_embeddings ++ [(st.speaker_id_counter + 1, e)],
              st.speaker_id_counter + 1⟩)))

/-- A concrete similarity function for the C5 witness: the dot product. -/
def simDot (a b : List ℚ) : ℚ := (List.zipWith (· * ·) a b).sum

/-! ## Scam-intent classification guard (`services/openai_service.py` and
`scam_detection.py`, `detect_scam_intent`) -/

/-- The characters Python's `str.strip()` removes (ASCII whitespace). -/
def pyIsSpace (c : Char) : Bool :=
  c = ' ' || c = '\t' || c = '\n' || c = '\r' || c = '\x0b' || c = '\x0c'

/-- Python `text.strip()` on the character list of `text`. -/
def pyStrip (l : List Char) : List Char :=
  ((l.dropWhile pyIsSpace).reverse.dropWhile pyIsSpace).reverse

/-- `models/analysis_models.py` `ScamDetectionResult` (label and rationale). -/
structure ScamDetectionResult where
  label : String
  rationale : String

/-- `OpenAIService.detect_scam_intent`: the guard structure, with the LLM call
(OpenAI chat completion plus response parsing) passed in as `llm`. -/
def openai_detect_scam_intent (api_key_set : Bool)
    (llm : String → String → ScamDetectionResult)
    (text language : String) : ScamDetectionResult :=
  if pyStrip text.data = [] then
    ⟨"Safe", "No speech detected or transcribed."⟩
  else if api_key_set = false then
    ⟨"Error", "OPENAI_API_KEY not set."⟩
  else llm text language

/-- `scam_detection.py` `detect_scam_intent`: same guard, no API-key check. -/
def detect_scam_intent (llm : String → String → ScamDetectionResult)
    (text language : String) : ScamDetectionResult :=
  if pyStrip text.data = [] then
    ⟨"Safe", "No speech detected or transcribed."⟩
  else llm text language

/-! ## Alert categories (`tts_alerts.py`, `TTSAlerts._determine_alert_type`)
and detailed indicators (`scam_detector.py`, `_get_detailed_indicators`) -/

/-- One entry of the indicator list built by `_get_detailed_indicators`
(a dictionary with keys type, pattern, severity, description). -/
structure Indicator where
  type : String
  pattern : String
  severity : String
  description : String

/-- Python's substring test `needle in hay` on the characters of two strings. -/
def strContains (hay needle : String) : Bool :=
  hay.data.tails.any (fun t => needle.data.isPrefixOf t)

/-- `TTSAlerts._determine_alert_type`: the alert category chosen from the risk
score and the indicator list (every indicator the pipeline passes in is a
dictionary, so the `isinstance(ind, dict)` filter keeps all of them). -/
def determine_alert_type (risk_score : ℚ) (indicators : List Indicator) : String :=
  let indicator_types := indicators.map (fun i => i.type)
  if indicator_types.contains "personal_info_request" then "personal_info"
  else if indicator_types.contains "pressure_tactic" then "pressure_tactics"
  else if indicator_types.any (fun t => strContains t "voice") then "voice_spoofing"
  else if 3 ≤ indicators.length then "scam_patterns"
  else if 80 ≤ risk_score then "high_risk"
  else "medium_risk"

/-- The alert category as claim C7 states it: first applicable rule in the
fixed priority order — personal-info request, pressure tactic, voice spoofing,
at least 3 combined indicators, score ≥ 80, default medium risk. -/
def priorityAlertType (risk_score : ℚ) (indicators : List Indicator) : String :=
  if ∃ i ∈ indicators, i.type = "personal_info_request" then "personal_info"
  else if ∃ i ∈ indicators, i.type = "pressure_tactic" then "pressure_tactics"
  else if ∃ i ∈ indicators, "voice".data <:+: i.type.data then "voice_spoofing"
  else if 3 ≤ indicators.length then "scam_patterns"
  else if 80 ≤ risk_score then "high_risk"
  else "medium_risk"

/-- The built-in English scam regex patterns (`ScamDetector.scam_patterns["en"]`). -/
def scam_patterns_en : List String :=
  ["verify your account", "suspended.*account", "click.*link.*immediately",
   "urgent.*action.*required", "social security.*suspended", "IRS.*lawsuit",
   "microsoft.*support", "refund.*pending", "gift card", "wire transfer",
   "bitcoin", "cryptocurrency", "bank.*security.*department",
   "account.*compromised", "unauthorized.*transaction", "confirm.*identity",
   "provide.*ssn", "credit card.*expired", "tech.*support.*virus",
   "computer.*infected"]

/-- `ScamDetector.scam_patterns["es"]`. -/
def scam_patterns_es : List String :=
  ["verificar.*cuenta", "cuenta.*suspendida", "acción.*urgente",
   "seguridad social", "transferencia.*dinero", "tarjeta.*regalo",
   "soporte.*técnico", "reembolso.*pendiente", "banco.*seguridad",
   "cuenta.*comprometida", "transacción.*no.*autorizada",
   "confirmar.*identidad", "proporcionar.*número", "tarjeta.*crédito.*vencida"]

/-- `ScamDetector.scam_patterns["fr"]`. -/
def scam_patterns_fr : List String :=
  ["vérifier.*compte", "compte.*suspendu", "action.*urgente",
   "sécurité sociale", "transfert.*argent", "carte.*cadeau",
   "support.*technique", "remboursement.*en.*attente", "banque.*sécurité",
   "compte.*compromis", "transaction.*non.*autorisée", "confirmer.*identité",
   "fournir.*numéro", "carte.*crédit.*expirée"]

/-- `ScamDetector.scam_patterns["de"]`. -/
def scam_patterns_de : List String :=
  ["konto.*verifizieren", "konto.*gesperrt", "sofortige.*aktion",
   "sicherheit.*problem", "geld.*überweisen", "geschenkkarte",
   "technischer.*support", "rückerstattung.*ausstehend", "bank.*sicherheit",
   "konto.*kompromittiert"]

/-- `ScamDetector.scam_patterns["it"]`. -/
def scam_patterns_it : List String :=
  ["verificare.*conto", "conto.*sospeso", "azione.*immediata",
   "problema.*sicurezza", "trasferire.*denaro", "carta.*regalo",
   "supporto.*tecnico", "rimborso.*in.*sospeso", "banca.*sicurezza",
   "conto.*compromesso"]

/-- The `scam_patterns` dictionary, in insertion order. -/
def scam_patterns : List (String × List String) :=
  [("en", scam_patterns_en), ("es", scam_patterns_es), ("fr", scam_patterns_fr),
   ("de", scam_patterns_de), ("it", scam_patterns_it)]

/-- `self.scam_patterns.get(language, self.scam_patterns["en"])`. -/
def patterns_for_language (language : String) : List String :=
  match scam_patterns.find? (fun p => p.1 == language) with
  | some p => p.2
  | none => scam_patterns_en

/-- `ScamDetector.pressure_patterns`. -/
def pressure_patterns : List String :=
  ["act.*now", "limited.*time", "expires.*today", "don\x27t.*tell.*anyone",
   "keep.*secret", "immediately", "urgent", "emergency", "right.*now",
   "before.*it\x27s.*too.*late", "last.*chance", "final.*notice",
   "within.*24.*hours", "call.*back.*immediately"]

/-- `ScamDetector.personal_info_patterns`. -/
def personal_info_patterns : List String :=
  ["social.*security.*number", "ssn", "credit.*card.*number",
   "bank.*account.*number", "routing.*number", "pin.*number", "password",
   "date.*of.*birth", "mother.*maiden.*name", "full.*name", "address",
   "phone.*number"]

/-- `ScamDetector._get_detailed_indicators`, with the regex engine
(`re.search(pattern, text_lower)`) passed in as `research`: all matching
patterns of the three families are collected in order and the list is cut to
its first 10 entries. -/
def get_detailed_indicators (research : String → String → Bool)
    (text language : String) : List Indicator :=
  let text_lower := text.toLower
  let patterns := patterns_for_language language
  let scamInds := (patterns.filter (fun p => research p text_lower)).map
    (fun p => ⟨"scam_pattern", p, "high", "Detected scam pattern: " ++ p⟩)
  let pressureInds := (pressure_patterns.filter (fun p => research p text_lower)).map
    (fun p => ⟨"pressure_tactic", p, "medium", "Pressure tactic detected: " ++ p⟩)
  let personalInds := (personal_info_patterns.filter (fun p => research p text_lower)).map
    (fun p => ⟨"personal_info_request", p, "high", "Personal information request: " ++ p⟩)
  (scamInds ++ pressureInds ++ personalInds).take 10

/-- The indicator list `ScamDetector.analyze_text` puts into its result: empty
when the input text is blank (the `_empty_result` path), otherwise the detailed
indicators. -/
def analyze_text_indicators (research : String → String → Bool)
    (text language : String) : List Indicator :=
  if pyStrip text.data = [] then []
  else get_detailed_indicators research text language

/-! ## Session persistence on disconnect (`main.py`,
`ConnectionManager.disconnect` and `_save_session_data`) -/

/-- One entry of a session's `transcript_segments` list. -/
structure TranscriptSegment where
  text : String
  language : String
  risk_score : ℚ
  indicators : List Indicator
  voice_spoofing : Bool
  spoofing_confidence : ℚ

/-- The per-client session dictionary created on connect (its `start_time` is
kept outside the model; `duration` below is passed in as the elapsed time). -/
structure ClientSession where
  transcript_segments : List TranscriptSegment
  risk_scores : List ℚ
  total_chunks : ℕ

/-- The flat record handed to `db_manager.save_call_record`. -/
structure CallRecord where
  client_id : String
  duration : ℚ
  risk_score : ℚ
  risk_level : String
  transcript : String
  caller_info : String
  scam_indicators : List (List Indicator)
  voice_spoofing_detected : Bool
  spoofing_confidence : ℚ
  language_detected : String

/-- Python `max(l)` on a nonempty list, with `d` for the guarded empty cases
(`max(l) if l else d` and `max(l or [d])`). -/
def pyMax (l : List ℚ) (d : ℚ) : ℚ :=
  match l with
  | [] => d
  | x :: xs => xs.foldl max x

/-- `ConnectionManager._save_session_data`, as invoked by `disconnect`: a
record is built and saved only when `total_chunks > 0`; `none` models the
no-save path. -/
def save_session_data (client_id : String) (elapsed : ℚ)
    (session : ClientSession) : Option CallRecord :=
  if 0 < session.total_chunks then
    some
      { client_id := client_id
        duration := elapsed
        risk_score := if session.risk_scores = [] then 0 else pyMax session.risk_scores 0
        risk_level := get_risk_level
          (if session.risk_scores = [] then 0 else pyMax session.risk_scores 0)
        transcript := String.intercalate " "
          (session.transcript_segments.map (fun s => s.text))
        caller_info := "Unknown"
        scam_indicators := session.transcript_segments.map (fun s => s.indicators)
        voice_spoofing_detected := session.transcript_segments.any
          (fun s => s.voice_spoofing)
        spoofing_confidence := pyMax
          (session.transcript_segments.map (fun s => s.spoofing_confidence)) 0
        language_detected :=
          match session.transcript_segments.getLast? with
          | some s => s.language
          | none => "unknown" }
  else none

/-! ## Incident report (`controllers/report_controller.py`,
`ReportController.generate_incident_report`) -/

/-- `models/analysis_models.py` `TranscriptionResult`. -/
structure TranscriptionResult where
  text : String
  language : String

/-- `models/analysis_models.py` `AntiSpoofingResult`. -/
structure AntiSpoofingResult where
  is_synthetic : Bool
  confidence : ℚ

/-- `models/analysis_models.py` `AnalysisResult` (the fields the report
reads; the optional audio payload is omitted). -/
structure AnalysisResult where
  speaker : String
  start_time : ℚ
  end_time : ℚ
  transcription : TranscriptionResult
  anti_spoofing : AntiSpoofingResult
  scam_detection : ScamDetectionResult
  alert_triggered : Bool

/-- `models/analysis_models.py` `IncidentReport`. -/
structure IncidentReport where
  call_duration_seconds : ℚ
  total_segments_analyzed : ℕ
  scam_segments_count : ℕ
  suspicious_segments_count : ℕ
  flagged_segments : List AnalysisResult
  summary : String
  recommended_next_steps : String

/-- `ReportController.generate_incident_report`, with Python's `f"{x:.1f}"`
number formatting passed in as `fmt` (`call_start_time` is only logged). -/
def generate_incident_report (fmt : ℚ → String)
    (all_analysis_results : List AnalysisResult) (call_start_time : ℚ) : IncidentReport :=
  let call_duration_seconds : ℚ :=
    match all_analysis_results with
    | [] => 0
    | r0 :: rest =>
      let d := ((r0 :: rest).getLastD r0).end_time - r0.start_time
      if d < 0 then r0.end_time - r0.start_time else d
  let scam_segments := all_analysis_results.filter
    (fun r => r.scam_detection.label == "Scam")
  let suspicious_segments := all_analysis_results.filter
    (fun r => r.scam_detection.label == "Suspicious")
  let flagged_segments := scam_segments ++ suspicious_segments
  let summary := "Call lasted approximately " ++ fmt call_duration_seconds
    ++ " seconds. " ++ "Analyzed " ++ toString all_analysis_results.length
    ++ " speech segments. "
    ++ (if scam_segments.isEmpty = false then
          "Detected " ++ toString scam_segments.length ++ " scam segments. "
        else "")
    ++ (if suspicious_segments.isEmpty = false then
          "Detected " ++ toString suspicious_segments.length ++ " suspicious segments. "
        else "")
    ++ (if flagged_segments.isEmpty then "No suspicious or scam activity detected."
        else "Key flagged segments are detailed below.")
  let recommended_next_steps := "Based on the analysis:\n"
    ++ (if scam_segments.isEmpty = false then
          "- Immediately block the caller\x27s number.\n- Report the incident to relevant authorities (e.g., police, consumer protection).\n- Do not share any personal or financial information with unknown callers.\n"
        else if suspicious_segments.isEmpty = false then
          "- Be cautious of similar calls in the future.\n- Verify the identity of callers independently (e.g., call back on an official number).\n"
        else "- Continue to be vigilant against potential scam attempts.\n")
  { call_duration_seconds := call_duration_seconds
    total_segments_analyzed := all_analysis_results.length
    scam_segments_count := scam_segments.length
    suspicious_segments_count := suspicious_segments.length
    flagged_segments := flagged_segments
    summary := summary
    recommended_next_steps := recommended_next_steps }

/-- A single analysis result whose end time precedes its start time. -/
def misorderedResult : AnalysisResult :=
  { speaker := "caller", start_time := 5, end_time := 3
    transcription := ⟨"", "en"⟩, anti_spoofing := ⟨false, 0⟩
    scam_detection := ⟨"Safe", ""⟩, alert_triggered := false }

/-! ## Properties -/

theorem dequeAppend_length_le (maxS : ℕ) (buf : List ℚ) (x : ℚ) :
    (dequeAppend maxS buf x).length ≤ maxS := by
  simp only [dequeAppend, List.length_drop, List.length_append, List.length_cons,
    List.length_nil]
  omega

theorem add_chunk_length_le (maxS : ℕ) (buf : List ℚ) (chunk : List ℚ)
    (h : buf.length ≤ maxS) : (add_chunk maxS buf chunk).length ≤ maxS := by
  induction chunk generalizing buf with
  | nil => simpa [add_chunk] using h
  | cons y ys ih =>
    simpa [add_chunk] using ih (dequeAppend maxS buf y) (dequeAppend_length_le maxS buf y)

theorem runAddChunks_length_le (maxS : ℕ) (chunks : List (List ℚ)) :
    (runAddChunks maxS chunks).length ≤ maxS := by
  suffices h : ∀ buf : List ℚ, buf.length ≤ maxS →
      (chunks.foldl (add_chunk maxS) buf).length ≤ maxS by
    simpa [runAddChunks] using h [] (by simp)
  induction chunks with
  | nil => intro buf hb; simpa using hb
  | cons c cs ih =>
    intro buf hb
    simpa using ih (add_chunk maxS buf c) (add_chunk_length_le maxS buf c hb)

/-- C2: for every sequence of `add_chunk` calls with arbitrary chunk sizes,
after each append the number of samples stored in the `AudioBuffer` is at most
`max_duration * sample_rate` (every prefix of the call sequence is itself a
value of `chunks`, so the bound holds after each append). -/
theorem audioBuffer_length_bounded (max_duration : ℚ) (sample_rate : ℕ)
    (h : 0 ≤ max_duration) (chunks : List (List ℚ)) :
    ((runAddChunks (maxSamples max_duration sample_rate) chunks).length : ℚ)
      ≤ max_duration * sample_rate := by
  have h1 : ((runAddChunks (maxSamples max_duration sample_rate) chunks).length : ℚ)
      ≤ (maxSamples max_duration sample_rate : ℚ) := by
    exact_mod_cast runAddChunks_length_le (maxSamples max_duration sample_rate) chunks
  refine h1.trans ?_
  have hq : (0 : ℚ) ≤ max_duration * sample_rate := by positivity
  have hfloor : (0 : ℤ) ≤ ⌊max_duration * (sample_rate : ℚ)⌋ := by
    exact_mod_cast Int.floor_nonneg.mpr hq
  have : ((maxSamples max_duration sample_rate : ℤ) : ℚ)
      ≤ max_duration * sample_rate := by
    rw [maxSamples, Int.toNat_of_nonneg hfloor]
    exact Int.floor_le _
  exact_mod_cast this

/-- Witness for C2 at a concrete configuration and chunk sequence. -/
theorem audioBuffer_length_bounded_witness :
    ((runAddChunks (maxSamples 10 16000) [[1, 2], [3]]).length : ℚ) ≤ 10 * 16000 :=
  audioBuffer_length_bounded 10 16000 (by norm_num) [[1, 2], [3]]

/-- C1 counterexample: with all six sub-scores 0, voice-spoofing score 100 and
both confidences 50, the code produces 25.5 while the claimed formula gives 30. -/
theorem fused_score_ne_claimed :
    fused_risk_score true ⟨0, 0, 0, 0, 0, 0⟩ 100 50 50 = 51 / 2
    ∧ claimedFusedScore true ⟨0, 0, 0, 0, 0, 0⟩ 100 = 30
    ∧ fused_risk_score true ⟨0, 0, 0, 0, 0, 0⟩ 100 50 50
        ≠ claimedFusedScore true ⟨0, 0, 0, 0, 0, 0⟩ 100 := by
  refine ⟨?_, ?_, ?_⟩ <;>
    norm_num [fused_risk_score, calculate_risk_score, combine_scores,
      claimedFusedScore, text_weighted_sum, high_score_count, TextScores.values]

/-- C1 amended: for every set of six sub-scores, voice-spoofing score and pair
of confidences, the fused risk score equals the two-stage formula of
`amendedFusedScore`. -/
theorem fused_score_eq_amended (use_openai : Bool) (s : TextScores)
    (voice_score scam_confidence voice_confidence : ℚ) :
    fused_risk_score use_openai s voice_score scam_confidence voice_confidence
      = amendedFusedScore use_openai s voice_score scam_confidence voice_confidence := by
  have hcomp : combine_scores use_openai s = min 100 (max 0
      ((if 2 ≤ high_score_count s then (12 : ℚ) / 10 else 1)
        * text_weighted_sum use_openai s)) := by
    simp only [combine_scores]
    split_ifs <;> ring_nf
  simp only [fused_risk_score, calculate_risk_score, amendedFusedScore, hcomp]
  split_ifs <;> ring_nf

/-- C3: the fused risk score always lies in [0, 100]; two invocations of the
fusion function and of the level-derivation function on identical inputs give
identical results; and the risk level follows the fixed thresholds
(≥ 70 scam, 40 ≤ score < 70 suspicious, < 40 safe). -/
theorem fusion_bounded_and_pure (use_openai : Bool) (s : TextScores)
    (voice_score scam_confidence voice_confidence : ℚ) :
    (0 ≤ fused_risk_score use_openai s voice_score scam_confidence voice_confidence
      ∧ fused_risk_score use_openai s voice_score scam_confidence voice_confidence ≤ 100)
    ∧ (fused_risk_score use_openai s voice_score scam_confidence voice_confidence
        = fused_risk_score use_openai s voice_score scam_confidence voice_confidence
      ∧ get_risk_level
          (fused_risk_score use_openai s voice_score scam_confidence voice_confidence)
        = get_risk_level
          (fused_risk_score use_openai s voice_score scam_confidence voice_confidence))
    ∧ (∀ x : ℚ, (70 ≤ x → get_risk_level x = "scam")
        ∧ (40 ≤ x ∧ x < 70 → get_risk_level x = "suspicious")
        ∧ (x < 40 → get_risk_level x = "safe")) := by
  refine ⟨⟨?_, ?_⟩, ⟨rfl, rfl⟩, ?_⟩
  · simp only [fused_risk_score, calculate_risk_score]
    exact le_min (by norm_num) (le_max_left _ _)
  · simp only [fused_risk_score, calculate_risk_score]
    exact min_le_left _ _
  · intro x
    refine ⟨fun h => ?_, fun h => ?_, fun h => ?_⟩
    · simp [get_risk_level, h]
    · have h1 : ¬ (70 : ℚ) ≤ x := by linarith [h.2]
      simp [get_risk_level, h1, h.1]
    · have h1 : ¬ (70 : ℚ) ≤ x := by linarith
      have h2 : ¬ (40 : ℚ) ≤ x := by linarith
      simp [get_risk_level, h1, h2]

theorem vad_fold_silent (audio : List ℚ) (frame_size sample_rate : ℕ)
    (threshold min_speech_duration : ℚ) (l : List ℕ) (c : ℕ)
    (h : ∀ i ∈ l, frameEnergy audio frame_size i ≤ threshold) :
    l.foldl (vadStep audio frame_size sample_rate threshold min_speech_duration)
      ⟨false, c, []⟩ = ⟨false, c, []⟩ := by
  induction l with
  | nil => rfl
  | cons i is ih =>
    have hi : ¬ threshold < frameEnergy audio frame_size i :=
      not_lt.mpr (h i (List.mem_cons_self i is))
    have hstep : vadStep audio frame_size sample_rate threshold min_speech_duration
        ⟨false, c, []⟩ i = ⟨false, c, []⟩ := by
      simp [vadStep, hi]
    rw [List.foldl_cons, hstep]
    exact ih (fun j hj => h j (List.mem_cons_of_mem i hj))

/-- C4: when the energy of every evaluated frame stays at or below the VAD
threshold, `detect_speech_segments` returns an empty span list. -/
theorem vad_silent_gives_no_segments (audio : List ℚ) (sample_rate : ℕ)
    (threshold min_speech_duration : ℚ)
    (h : ∀ i ∈ vadIndices audio.length (2 * sample_rate / 100) (sample_rate / 100),
      frameEnergy audio (2 * sample_rate / 100) i ≤ threshold) :
    detect_speech_segments audio sample_rate threshold min_speech_duration = [] := by
  simp only [detect_speech_segments]
  rw [vad_fold_silent audio (2 * sample_rate / 100) sample_rate threshold
    min_speech_duration _ 0 h]
  simp

/-- Witness for C4: a 5-sample all-zero window at sample rate 100 with the
reference threshold 0.01 produces no spans (the loop evaluates frames 0, 1, 2,
each of energy 0). -/
theorem vad_silent_gives_no_segments_witness :
    detect_speech_segments (List.replicate 5 0) 100 (1 / 100) (1 / 10) = [] := by
  refine vad_silent_gives_no_segments (List.replicate 5 0) 100 (1 / 100) (1 / 10) ?_
  intro i hi
  have hv : vadIndices (List.replicate 5 (0 : ℚ)).length (2 * 100 / 100) (100 / 100)
      = [0, 1, 2] := by decide
  rw [hv] at hi
  fin_cases hi <;> norm_num [frameEnergy, List.replicate]

theorem bestLoop_fst_le (f : List ℚ → ℚ) (l : List (ℕ × List ℚ)) (m : ℚ) (b : Option ℕ) :
    m ≤ (bestLoop f l (m, b)).1 := by
  induction l generalizing m b with
  | nil => simp [bestLoop]
  | cons p rest ih =>
    simp only [bestLoop]
    by_cases hp : m < f p.2
    · rw [if_pos hp]
      exact (le_of_lt hp).trans (ih _ _)
    · rw [if_neg hp]
      exact ih m b

theorem bestLoop_le_fst (f : List ℚ → ℚ) (l : List (ℕ × List ℚ)) (m : ℚ) (b : Option ℕ)
    (q : ℕ × List ℚ) (hq : q ∈ l) : f q.2 ≤ (bestLoop f l (m, b)).1 := by
  induction l generalizing m b with
  | nil => exact absurd hq (List.not_mem_nil q)
  | cons p rest ih =>
    simp only [bestLoop]
    rcases List.mem_cons.mp hq with rfl | hq2
    · by_cases hp : m < f q.2
      · rw [if_pos hp]
        exact bestLoop_fst_le f rest _ _
      · rw [if_neg hp]
        exact (not_lt.mp hp).trans (bestLoop_fst_le f rest m b)
    · by_cases hp : m < f p.2
      · rw [if_pos hp]
        exact ih _ _ hq2
      · rw [if_neg hp]
        exact ih m b hq2

theorem bestLoop_snd_of_fst_eq (f : List ℚ → ℚ) (l : List (ℕ × List ℚ)) (m : ℚ)
    (b : Option ℕ) (h : (bestLoop f l (m, b)).1 = m) : (bestLoop f l (m, b)).2 = b := by
  induction l generalizing m b with
  | nil => rfl
  | cons p rest ih =>
    simp only [bestLoop] at h ⊢
    by_cases hp : m < f p.2
    · rw [if_pos hp] at h
      have := bestLoop_fst_le f rest (f p.2) (some p.1)
      rw [h] at this
      exact absurd hp (not_lt.mpr this)
    · rw [if_neg hp] at h ⊢
      exact ih m b h

theorem bestLoop_argmax (f : List ℚ → ℚ) (l : List (ℕ × List ℚ)) (m : ℚ) (b : Option ℕ)
    (hs : l.Pairwise (fun p q => p.1 < q.1)) (h : m < (bestLoop f l (m, b)).1) :
    ∃ best ∈ l, (bestLoop f l (m, b)).2 = some best.1
      ∧ f best.2 = (bestLoop f l (m, b)).1
      ∧ ∀ q ∈ l, f q.2 = (bestLoop f l (m, b)).1 → best.1 ≤ q.1 := by
  induction l generalizing m b with
  | nil => simp only [bestLoop] at h; exact absurd h (lt_irrefl m)
  | cons p rest ih =>
    rcases List.pairwise_cons.mp hs with ⟨hp_lt, hrest⟩
    simp only [bestLoop] at h ⊢
    by_cases hp : m < f p.2
    · rw [if_pos hp] at h ⊢
      by_cases h2 : f p.2 < (bestLoop f rest (f p.2, some p.1)).1
      · obtain ⟨best, hmem, hb, hf, htie⟩ := ih _ _ hrest h2
        refine ⟨best, List.mem_cons_of_mem p hmem, hb, hf, ?_⟩
        intro q hq hfq
        rcases List.mem_cons.mp hq with rfl | hq2
        · exact absurd hfq (ne_of_lt h2)
        · exact htie q hq2 hfq
      · have hR : (bestLoop f rest (f p.2, some p.1)).1 = f p.2 :=
          le_antisymm (not_lt.mp h2) (bestLoop_fst_le f rest _ _)
        refine ⟨p, List.mem_cons_self p rest,
          bestLoop_snd_of_fst_eq f rest _ _ hR, hR.symm, ?_⟩
        intro q hq _
        rcases List.mem_cons.mp hq with rfl | hq2
        · exact le_refl _
        · exact (hp_lt q hq2).le
    · rw [if_neg hp] at h ⊢
      obtain ⟨best, hmem, hb, hf, htie⟩ := ih _ _ hrest h
      refine ⟨best, List.mem_cons_of_mem p hmem, hb, hf, ?_⟩
      intro q hq hfq
      rcases List.mem_cons.mp hq with rfl | hq2
      · have : f q.2 ≤ m := not_lt.mp hp
        rw [hfq] at this
        exact absurd h (not_lt.mpr this)
      · exact htie q hq2 hfq

theorem bestLoop_fst_lt_iff (f : List ℚ → ℚ) (l : List (ℕ × List ℚ)) (m c : ℚ)
    (b : Option ℕ) (hmc : m ≤ c) :
    c < (bestLoop f l (m, b)).1 ↔ ∃ q ∈ l, c < f q.2 := by
  constructor
  · intro h
    have hm : m < (bestLoop f l (m, b)).1 := lt_of_le_of_lt hmc h
    -- the maximum is attained by a registered speaker
    induction l generalizing m b with
    | nil => simp only [bestLoop] at hm; exact absurd hm (lt_irrefl m)
    | cons p rest ih =>
      simp only [bestLoop] at h hm
      by_cases hp : m < f p.2
      · rw [if_pos hp] at h hm
        by_cases h2 : f p.2 ≤ c
        · obtain ⟨q, hq, hcq⟩ := ih (f p.2) (some p.1) h2 h (lt_of_le_of_lt h2 h)
          exact ⟨q, List.mem_cons_of_mem p hq, hcq⟩
        · exact ⟨p, List.mem_cons_self p rest, not_le.mp h2⟩
      · rw [if_neg hp] at h hm
        obtain ⟨q, hq, hcq⟩ := ih m b hmc h hm
        exact ⟨q, List.mem_cons_of_mem p hq, hcq⟩
  · rintro ⟨q, hq, hcq⟩
    exact lt_of_lt_of_le hcq (bestLoop_le_fst f l m b q hq)

/-- C5: `assign_speaker` behaves as claim C5 states, for every similarity
function, every registry whose ids are in increasing registration order (as
every registry built by `assign_speaker` itself is), and every embedding. -/
theorem assign_speaker_matches_claim (sim : List ℚ → List ℚ → ℚ) (st : DiarState)
    (e : List ℚ)
    (hsorted : st.speaker_embeddings.Pairwise (fun p q => p.1 < q.1)) :
    AssignSpeakerClaim sim st e := by
  refine ⟨fun he => ?_, fun hne => ⟨fun hex => ?_, fun hall => ?_⟩⟩
  · simp [assign_speaker, he]
  · have hne' : st.speaker_embeddings.isEmpty = false := by
      cases hmatch : st.speaker_embeddings with
      | nil => exact absurd hmatch hne
      | cons a l => rfl
    have hcond : (1 : ℚ) / 4 <
        (bestLoop (fun c => sim e c) st.speaker_embeddings (-1, none)).1 :=
      (bestLoop_fst_lt_iff (fun c => sim e c) st.speaker_embeddings (-1) (1 / 4) none
        (by norm_num)).mpr hex
    obtain ⟨best, hmem, hb, hf, htie⟩ :=
      bestLoop_argmax (fun c => sim e c) st.speaker_embeddings (-1) none hsorted
        (lt_trans (by norm_num) hcond)
    refine ⟨best, hmem, fun q hq => ?_, fun q hq hq2 => ?_, ?_⟩
    · have hle := bestLoop_le_fst (fun c => sim e c) st.speaker_embeddings (-1) none q hq
      rw [← hf] at hle
      exact hle
    · exact htie q hq (by rw [hq2, hf])
    · simp only [assign_speaker, hne', Bool.false_eq_true, if_false]
      rw [if_pos hcond, hb]
      rfl
  · have hne' : st.speaker_embeddings.isEmpty = false := by
      cases hmatch : st.speaker_embeddings with
      | nil => exact absurd hmatch hne
      | cons a l => rfl
    have hnotlt : ¬ (1 : ℚ) / 4 <
        (bestLoop (fun c => sim e c) st.speaker_embeddings (-1, none)).1 := by
      intro hc
      obtain ⟨q, hq, h4⟩ := (bestLoop_fst_lt_iff (fun c => sim e c)
        st.speaker_embeddings (-1) (1 / 4) none (by norm_num)).mp hc
      exact absurd h4 (not_lt.mpr (hall q hq))
    simp only [assign_speaker, hne', Bool.false_eq_true, if_false]
    rw [if_neg hnotlt]

/-- Witness for C5 at a concrete registry of two speakers whose ids are in
registration order. -/
theorem assign_speaker_matches_claim_witness :
    AssignSpeakerClaim simDot ⟨[(1, [1]), (2, [0])], 2⟩ [1] :=
  assign_speaker_matches_claim simDot ⟨[(1, [1]), (2, [0])], 2⟩ [1]
    (by simp [List.pairwise_cons])

/-- C6: when the transcript is empty or whitespace-only, both scam-intent
entry points return Safe with the "no speech" rationale, without invoking the
LLM (the result does not depend on the `llm` function) and regardless of the
language argument. -/
theorem empty_transcript_classified_safe (api_key_set : Bool)
    (llm llm2 : String → String → ScamDetectionResult)
    (text language language2 : String) (h : pyStrip text.data = []) :
    openai_detect_scam_intent api_key_set llm text language
      = ⟨"Safe", "No speech detected or transcribed."⟩
    ∧ detect_scam_intent llm text language
      = ⟨"Safe", "No speech detected or transcribed."⟩
    ∧ openai_detect_scam_intent api_key_set llm text language
      = openai_detect_scam_intent api_key_set llm2 text language2
    ∧ detect_scam_intent llm text language = detect_scam_intent llm2 text language2 := by
  refine ⟨?_, ?_, ?_, ?_⟩ <;>
    simp [openai_detect_scam_intent, detect_scam_intent, h]

/-- Witness for C6: a whitespace-only transcript with two different LLM stubs
and two different languages. -/
theorem empty_transcript_classified_safe_witness :
    openai_detect_scam_intent true (fun _ _ => ⟨"Scam", "x"⟩) "  \n " "en"
      = ⟨"Safe", "No speech detected or transcribed."⟩
    ∧ detect_scam_intent (fun _ _ => ⟨"Scam", "x"⟩) "  \n " "en"
      = ⟨"Safe", "No speech detected or transcribed."⟩
    ∧ openai_detect_scam_intent true (fun _ _ => ⟨"Scam", "x"⟩) "  \n " "en"
      = openai_detect_scam_intent true (fun _ _ => ⟨"Suspicious", "y"⟩) "  \n " "fr"
    ∧ detect_scam_intent (fun _ _ => ⟨"Scam", "x"⟩) "  \n " "en"
      = detect_scam_intent (fun _ _ => ⟨"Suspicious", "y"⟩) "  \n " "fr" :=
  empty_transcript_classified_safe true (fun _ _ => ⟨"Scam", "x"⟩)
    (fun _ _ => ⟨"Suspicious", "y"⟩) "  \n " "en" "fr" (by decide)

theorem strContains_iff (hay needle : String) :
    strContains hay needle = true ↔ needle.data <:+: hay.data := by
  rw [strContains, List.infix_iff_prefix_suffix]
  simp only [List.any_eq_true, List.mem_tails, List.isPrefixOf_iff_prefix]
  exact ⟨fun ⟨t, h1, h2⟩ => ⟨t, h2, h1⟩, fun ⟨t, h1, h2⟩ => ⟨t, h2, h1⟩⟩

theorem indicator_contains_iff (indicators : List Indicator) (t : String) :
    (indicators.map (fun i => i.type)).contains t = true ↔ ∃ i ∈ indicators, i.type = t := by
  rw [List.contains_iff_exists_mem_beq]
  constructor
  · rintro ⟨x, hx, he⟩
    obtain ⟨i, hi, rfl⟩ := List.mem_map.mp hx
    exact ⟨i, hi, (beq_iff_eq.mp he).symm⟩
  · rintro ⟨i, hi, ht⟩
    exact ⟨i.type, List.mem_map.mpr ⟨i, hi, rfl⟩, beq_iff_eq.mpr ht.symm⟩

theorem indicator_voice_iff (indicators : List Indicator) :
    ((indicators.map (fun i => i.type)).any (fun t => strContains t "voice")) = true
      ↔ ∃ i ∈ indicators, "voice".data <:+: i.type.data := by
  rw [List.any_eq_true]
  constructor
  · rintro ⟨x, hx, he⟩
    obtain ⟨i, hi, rfl⟩ := List.mem_map.mp hx
    exact ⟨i, hi, (strContains_iff _ _).mp he⟩
  · rintro ⟨i, hi, ht⟩
    exact ⟨i.type, List.mem_map.mpr ⟨i, hi, rfl⟩, (strContains_iff _ _).mpr ht⟩

/-- C7: the selected alert category is the first applicable one in the fixed
priority order, for every risk score and indicator list. -/
theorem determine_alert_type_priority (risk_score : ℚ) (indicators : List Indicator) :
    determine_alert_type risk_score indicators
      = priorityAlertType risk_score indicators := by
  simp only [determine_alert_type, priorityAlertType, indicator_contains_iff,
    indicator_voice_iff]

/-- C9: for every regex engine, input text and language, the indicator list
returned by the text analysis contains at most 10 entries. -/
theorem indicators_at_most_ten (research : String → String → Bool)
    (text language : String) :
    (analyze_text_indicators research text language).length ≤ 10 := by
  rw [analyze_text_indicators]
  split
  · simp
  · rw [get_detailed_indicators]
    exact List.length_take_le 10 _

/-- C10: on disconnect a session with zero processed chunks is discarded
without a persisted record; a session with at least one chunk produces exactly
one record, whose max risk score is 0 when no per-chunk risk scores were
accumulated. -/
theorem save_session_data_only_active (client_id : String) (elapsed : ℚ)
    (session : ClientSession) :
    (session.total_chunks = 0 → save_session_data client_id elapsed session = none)
    ∧ (0 < session.total_chunks → ∃ r : CallRecord,
        save_session_data client_id elapsed session = some r
        ∧ (session.risk_scores = [] → r.risk_score = 0)) := by
  constructor
  · intro h0
    simp [save_session_data, h0]
  · intro hpos
    refine ⟨_, by rw [save_session_data, if_pos hpos], fun hempty => ?_⟩
    simp [hempty]

/-- C8 counterexample: on a single result with `end_time = 3 < start_time = 5`
the report's duration is `-2`, not clamped to be ≥ 0 as the claim states. -/
theorem report_duration_not_clamped :
    (generate_incident_report (fun _ => "") [misorderedResult] 0).call_duration_seconds
        = -2
    ∧ (generate_incident_report (fun _ => "") [misorderedResult] 0).call_duration_seconds
        < 0 := by
  constructor <;> norm_num [generate_incident_report, misorderedResult]

/-- C8 amended: the report duration is 0 for the empty list; for a nonempty
list it is the last result's end time minus the first result's start time,
except that when that difference is negative it is replaced by the first
result's end time minus the first result's start time (which coincides with
the original difference when only one result exists, so the stored duration
can remain negative). -/
theorem report_duration_amended (fmt : ℚ → String)
    (all_analysis_results : List AnalysisResult) (call_start_time : ℚ) :
    (all_analysis_results = [] →
      (generate_incident_report fmt all_analysis_results call_start_time).call_duration_seconds = 0)
    ∧ (∀ h : all_analysis_results ≠ [],
        (generate_incident_report fmt all_analysis_results call_start_time).call_duration_seconds
          = if (all_analysis_results.getLast h).end_time
                - (all_analysis_results.head h).start_time < 0 then
              (all_analysis_results.head h).end_time
                - (all_analysis_results.head h).start_time
            else
              (all_analysis_results.getLast h).end_time
                - (all_analysis_results.head h).start_time) := by
  constructor
  · intro he
    simp [generate_incident_report, he]
  · intro h
    match all_analysis_results, h with
    | r0 :: rest, _ =>
      simp only [generate_incident_report, List.head_cons, List.getLast_eq_getLastD,
        List.getLastD_cons]

end VoiceSentinel
